import Mathlib

/-!
Verification of the Dataset Auditor rule engine and job lifecycle of the
`gradio-migration-demo-2` repository.

The repository's checkout contains the Next.js UI (`audit-ui/`) and the
contract document (`CONTRACTS.md`); the Python engine (`backend_app/engine.py`,
`backend_app/tasks.py`, FastAPI layer) is not part of the checkout.  The engine
side is therefore modelled from the specification (each such definition carries
a doc comment starting with `Modelled from the spec:`); the UI-side definitions
(`sliderStore`, the polling loop) are shallow embeddings of the TypeScript in
`audit-ui/app/builder/step2/page.tsx` and `audit-ui/app/jobs/[jobId]/page.tsx`.
-/

namespace Audit

/-! ## Word tokenization (spec §4.3: split on runs of whitespace) -/

/-- Modelled from the spec: word tokenization of a cell value "splits on runs
of whitespace; punctuation-only words count as words".  `wordsAux` scans the
character list accumulating the current token (reversed). -/
def wordsAux : List Char → List Char → List (List Char)
  | [], acc => if acc.isEmpty then [] else [acc.reverse]
  | c :: cs, acc =>
    if c.isWhitespace then
      if acc.isEmpty then wordsAux cs [] else acc.reverse :: wordsAux cs []
    else wordsAux cs (c :: acc)

/-- Modelled from the spec: the list of whitespace-separated tokens of a cell
value. -/
def words (l : List Char) : List (List Char) := wordsAux l []

theorem wordsAux_eq_nil_iff (l : List Char) :
    ∀ acc, wordsAux l acc = [] ↔ acc = [] ∧ l.all Char.isWhitespace := by
  induction l with
  | nil =>
    intro acc
    cases acc with
    | nil => simp [wordsAux]
    | cons a as => simp [wordsAux]
  | cons c cs ih =>
    intro acc
    simp only [wordsAux]
    by_cases hw : c.isWhitespace
    · rw [if_pos hw]
      cases acc with
      | nil => simpa [hw] using ih []
      | cons a as => simp [hw]
    · rw [if_neg hw, ih (c :: acc)]
      simp [hw]

/-- A cell tokenizes to no words exactly when it is empty or whitespace-only. -/
theorem words_eq_nil_iff (l : List Char) :
    words l = [] ↔ l.all Char.isWhitespace := by
  rw [words, wordsAux_eq_nil_iff]
  simp

/-! ## Word-count rule (spec §4.1) -/

/-- Modelled from the spec: the word-count rule of `backend_app/engine.py`
(not in the checkout).  "Given a cell value, produce `"NULL VALUE"` if the
value is empty or whitespace-only; else split on whitespace and count tokens;
if count < `wordCountMin`, produce `"Too short (<N words)"`". -/
def wordCountMessages (minWords : Int) (cell : String) : List String :=
  let toks := words cell.data
  if toks.isEmpty then ["NULL VALUE"]
  else if (toks.length : Int) < minWords then
    ["Too short (<" ++ toString minWords ++ " words)"]
  else []

/-! ## Phrase matching (spec §4.1, §4.3) -/

/-- A word character for whole-word boundaries: spec §4.3, "boundaries are
non-alphanumeric characters or string edges". -/
def isWordChar (c : Char) : Bool := c.isAlphanum

/-- Modelled from the spec: substring containment on character lists
(`backend_app/engine.py` phrase matching, not in the checkout). -/
def containsSub (hay pat : List Char) : Bool :=
  match hay with
  | [] => pat.isEmpty
  | _ :: t => pat.isPrefixOf hay || containsSub t pat

/-- A whole-word occurrence of `pat` starting right here: `pat` is a prefix of
`hay`, the previous character (if any) is not a word character, and the
character after the match (if any) is not a word character. -/
def wholeWordHere (prev : Option Char) (hay pat : List Char) : Bool :=
  pat.isPrefixOf hay
    && (match prev with | none => true | some c => !isWordChar c)
    && (match hay.drop pat.length with | [] => true | c :: _ => !isWordChar c)

/-- Modelled from the spec: whole-word containment — some occurrence of `pat`
in `hay` is bounded by non-word characters or string edges. -/
def containsWholeWord (prev : Option Char) (hay pat : List Char) : Bool :=
  wholeWordHere prev hay pat
    || match hay with
       | [] => false
       | c :: t => containsWholeWord (some c) t pat

/-- Modelled from the spec: one phrase-containment test, honouring the
`caseSensitive` and `wholeWord` flags ("default is substring,
case-insensitive"). -/
def phraseMatches (caseSensitive wholeWord : Bool) (phrase cell : String) : Bool :=
  let hay := if caseSensitive then cell.data else cell.data.map Char.toLower
  let pat := if caseSensitive then phrase.data else phrase.data.map Char.toLower
  if wholeWord then containsWholeWord none hay pat else containsSub hay pat

/-! ## Keyword-flag rule (spec §4.1) -/

/-- ANY/ALL quantifier over a set of phrases (spec glossary). -/
inductive MatchMode where
  | ANY
  | ALL
  deriving DecidableEq, Repr

/-- AND/OR quantifier over the pool of enabled filter predicates
(spec glossary). -/
inductive FilterMode where
  | AND
  | OR
  deriving DecidableEq, Repr

/-- Modelled from the spec: keyword-flag configuration (spec §3,
`kw_flag` in `CONTRACTS.md`). -/
structure KeywordFlagCfg where
  enabled : Bool
  mode : MatchMode
  phrases : List String
  caseSensitive : Bool
  wholeWord : Bool
  deriving DecidableEq, Repr

/-- Combine per-phrase results with the mode: ANY → at least one true,
ALL → every one true. -/
def modeHolds (mode : MatchMode) (results : List Bool) : Bool :=
  match mode with
  | .ANY => results.any id
  | .ALL => results.all id

/-- Modelled from the spec: the keyword-flag rule of `backend_app/engine.py`
(not in the checkout).  "On match, emit `"Keyword flag: <phrase1, ...>"`
listing exactly the phrases that matched, comma-joined, in the order phrases
were configured." -/
def keywordFlagMessages (cfg : KeywordFlagCfg) (cell : String) : List String :=
  if !cfg.enabled then []
  else
    let hit := modeHolds cfg.mode
      (cfg.phrases.map (fun p => phraseMatches cfg.caseSensitive cfg.wholeWord p cell))
    let matched := cfg.phrases.filter
      (fun p => phraseMatches cfg.caseSensitive cfg.wholeWord p cell)
    if hit then ["Keyword flag: " ++ String.intercalate ", " matched] else []

/-! ## Filters and target configuration (spec §3, §4.1, §4.2) -/

/-- Modelled from the spec: one text-filter entry (spec §3 `textFilters`). -/
structure TextFilterCfg where
  mode : MatchMode
  phrases : List String
  /-- Source field name `include` (a Lean keyword): if true the row must
  contain a match to pass; if false it must not. -/
  includeMatch : Bool
  caseSensitive : Bool
  wholeWord : Bool
  deriving DecidableEq, Repr

/-- Modelled from the spec: per-target configuration (spec §3 TargetConfig,
`targets_config` in `CONTRACTS.md`).  The AI rule is a placeholder, "never
evaluated in this core". -/
structure TargetConfig where
  aiEnabled : Bool
  aiPrompt : String
  wordCountEnabled : Bool
  wordCountMin : Int
  keywordFlag : KeywordFlagCfg
  valueFilterEnabled : Bool
  filters : List (String × List String)
  textFilterEnabled : Bool
  textFilters : List (String × TextFilterCfg)
  filterMode : FilterMode
  deriving DecidableEq, Repr

/-- A row: an ordered mapping from column name to a scalar value
(spec §3 Row). -/
abbrev Row := List (String × String)

/-- Look a column up in a row; a missing column reads as the empty value. -/
def rowGet (row : Row) (col : String) : String :=
  ((List.lookup col row).getD "")

/-- Modelled from the spec: value-filter membership test — "row passes if its
value is a member of the configured allowed-value set" (spec §4.1). -/
def valueFilterPasses (allowed : List String) (value : String) : Bool :=
  allowed.contains value

/-- Modelled from the spec: text-filter test — phrase containment exactly as
in keyword-flag, then `include` applied (spec §4.1). -/
def textFilterPasses (cfg : TextFilterCfg) (value : String) : Bool :=
  let hit := modeHolds cfg.mode
    (cfg.phrases.map (fun p => phraseMatches cfg.caseSensitive cfg.wholeWord p value))
  if cfg.includeMatch then hit else !hit

/-- Modelled from the spec: the pool of filter predicates enabled for a target
on a row — "one per configured value-filter column with a non-empty allow-set,
one per configured text-filter column with a non-empty phrase-set"
(spec §4.2); value and text predicates go into the same pool. -/
def filterPredicates (t : TargetConfig) (row : Row) : List Bool :=
  (if t.valueFilterEnabled then
      (t.filters.filter (fun p => !p.2.isEmpty)).map
        (fun p => valueFilterPasses p.2 (rowGet row p.1))
    else [])
  ++
  (if t.textFilterEnabled then
      (t.textFilters.filter (fun p => !p.2.phrases.isEmpty)).map
        (fun p => textFilterPasses p.2 (rowGet row p.1))
    else [])

/-- Modelled from the spec: the filter verdict (spec §4.2) — empty pool passes
unconditionally, otherwise fold the pool with `filterMode`. -/
def filterVerdict (t : TargetConfig) (row : Row) : Bool :=
  let preds := filterPredicates t row
  if preds.isEmpty then true
  else
    match t.filterMode with
    | .AND => preds.all id
    | .OR => preds.any id

/-! ## Target evaluation and the Dataset Auditor (spec §4.2, §4.3) -/

/-- Modelled from the spec: the ordered mistake-message list for one target's
correctness rules on one cell: word-count first, then keyword-flag; the AI
rule is inert (spec §4.2). -/
def evalTargetMessages (t : TargetConfig) (cell : String) : List String :=
  (if t.wordCountEnabled then wordCountMessages t.wordCountMin cell else [])
    ++ keywordFlagMessages t.keywordFlag cell

/-- Modelled from the spec: serialized mistake cell — `"[]"` when there is no
message, otherwise the messages joined with `"; "` (spec §4.3 step 4). -/
def serializeMessages (msgs : List String) : String :=
  if msgs.isEmpty then "[]" else String.intercalate "; " msgs

/-- Modelled from the spec: the mistake cell for one target and one row — a
row failing the filter verdict gets `"[]"` for this target (spec §4.3
step 3), otherwise the serialized correctness messages. -/
def targetMistake (name : String) (t : TargetConfig) (row : Row) : String :=
  if filterVerdict t row then
    serializeMessages (evalTargetMessages t (rowGet row name))
  else "[]"

/-- The name of the appended mistake column for a target (spec §4.3
step 5). -/
def mistakeColumn (name : String) : String := name ++ " Mistakes"

/-- Modelled from the spec: a row with its mistake columns appended, one per
target, in target-declaration order (spec §4.3 step 5). -/
def annotateRow (targets : List (String × TargetConfig)) (row : Row) : Row :=
  row ++ targets.map (fun p => (mistakeColumn p.1, targetMistake p.1 p.2 row))

/-- A row is flagged when at least one of its mistake columns is not
`"[]"`. -/
def rowFlagged (targets : List (String × TargetConfig)) (row : Row) : Bool :=
  targets.any (fun p => !(rowGet row (mistakeColumn p.1) == "[]"))

/-- Modelled from the spec: the up-front configuration validation of
`backend_app/engine.py` (not in the checkout) — unknown target column, or
`wordCountMin` outside [1,20] while word-count is enabled, with the error
texts of `CONTRACTS.md` §Error semantics (spec §4.3 steps 1–2, §7). -/
def validateTargets (columns : List String) :
    List (String × TargetConfig) → Option String
  | [] => none
  | (n, t) :: rest =>
    if !(columns.contains n) then
      some ("Selected target column not found in Excel: " ++ n)
    else if t.wordCountEnabled && (t.wordCountMin < 1 || 20 < t.wordCountMin) then
      some ("'" ++ n ++ "' word-count minimum must be between 1 and 20.")
    else validateTargets columns rest

/-- Modelled from the spec: `auditDataset(rows, columns, targetsConfig) →
(annotatedRows, perTargetCounts)`, the single pure entry point (spec §6):
validate up front, annotate every row, retain only flagged rows (input order
preserved), and count flagged rows per target. -/
def auditDataset (columns : List String) (rows : List Row)
    (targetsConfig : List (String × TargetConfig)) :
    Except String (List Row × List (String × Nat)) :=
  match validateTargets columns targetsConfig with
  | some e => .error e
  | none =>
    let annotated := rows.map (annotateRow targetsConfig)
    let kept := annotated.filter (rowFlagged targetsConfig)
    let counts := targetsConfig.map
      (fun p => (p.1, annotated.countP (fun r => !(rowGet r (mistakeColumn p.1) == "[]"))))
    .ok (kept, counts)

/-- The error component of an audit outcome. -/
def errOf {α : Type} : Except String α → Option String
  | .error e => some e
  | .ok _ => none

/-! ## Job lifecycle (spec §4.4) -/

/-- Job status (spec §3 JobRecord). -/
inductive JobStatus where
  | PENDING
  | RUNNING
  | SUCCEEDED
  | FAILED
  deriving DecidableEq, Repr

/-- A snapshot of a job record as observed by `getStatus` (spec §3). -/
structure JobRecord where
  status : JobStatus
  progress : Nat
  error : Option String
  deriving DecidableEq, Repr

/-- Modelled from the spec: the sequence of job-record snapshots produced by
one run of the Job Controller (`backend_app/tasks.py` and the FastAPI job
endpoints, not in the checkout): PENDING on creation, RUNNING while
processing with per-row progress updates, then SUCCEEDED with progress 100,
or FAILED with the audit error recorded verbatim (spec §4.4, §7). -/
def runJobTrace (columns : List String) (rows : List Row)
    (targetsConfig : List (String × TargetConfig)) : List JobRecord :=
  let start : List JobRecord := [⟨.PENDING, 0, none⟩, ⟨.RUNNING, 0, none⟩]
  match auditDataset columns rows targetsConfig with
  | .error e => start ++ [⟨.FAILED, 0, some e⟩]
  | .ok _ =>
    let n := rows.length
    start
      ++ (List.range n).map
          (fun i => (⟨.RUNNING, ((i + 1) * 100) / max 1 n, none⟩ : JobRecord))
      ++ [⟨.SUCCEEDED, 100, none⟩]

/-- One legal step of the job state machine (spec §4.4): PENDING may only be
scheduled into RUNNING; RUNNING may keep running, succeed, or fail; no step
leaves SUCCEEDED or FAILED; progress never decreases. -/
def jobStepOk (a b : JobRecord) : Prop :=
  (match a.status, b.status with
    | .PENDING, .RUNNING => True
    | .RUNNING, .RUNNING => True
    | .RUNNING, .SUCCEEDED => True
    | .RUNNING, .FAILED => True
    | _, _ => False)
  ∧ a.progress ≤ b.progress

/-! ## UI embeddings

These are shallow embeddings of TypeScript under `audit-ui/`, which is part
of the checkout. -/

/-- The Step 2 builder's word-count slider handler
(`audit-ui/app/builder/step2/page.tsx`):
`c[t].wc_min = Math.max(1, Math.min(20, Number(v) || 7))`.
`none` stands for a non-numeric input (`Number` gives `NaN`); `NaN` and `0`
are falsy, so `|| 7` replaces them with 7 before the clamp. -/
def sliderStore (v : Option Int) : Int :=
  let n : Int := match v with
    | none => 7
    | some k => if k = 0 then 7 else k
  max 1 (min 20 n)

/-- The `wc_min` field after a sequence of slider interactions, starting from
the builder's default of 7 (`defaultTargetCfg` in
`audit-ui/app/builder/step2/page.tsx`): each interaction overwrites the field
with the stored value of its input. -/
def wcMinAfterSliders (inputs : List (Option Int)) : Int :=
  inputs.foldl (fun _ v => sliderStore v) 7

/-- Whether a polled status is terminal, as tested by the job status page
(`audit-ui/app/jobs/[jobId]/page.tsx`):
`next.status === "SUCCEEDED" || next.status === "FAILED"`. -/
def isTerminal (s : JobStatus) : Bool :=
  s == .SUCCEEDED || s == .FAILED

/-- The `polling` flag after one poll response is handled
(`JobStatusPage.poll`): `setPolling(false)` on a terminal status, unchanged
otherwise. -/
def handleResponse (polling : Bool) (s : JobStatus) : Bool :=
  if isTerminal s then false else polling

/-- Embedding of the job status page's polling loop
(`audit-ui/app/jobs/[jobId]/page.tsx`).  The effect runs `poll()` once and
then, only when `polling` is true, starts a 1-second interval of `poll()`
calls; its cleanup clears the interval.  A `setPolling(false)` from a
terminal response changes the `polling` dependency, so the effect re-runs:
the interval is cleared and `poll()` runs once more with `polling = false`.
`pollRun responses polling` returns the responses actually fetched (one per
issued request, in order) and the final `polling` flag, for a run entered
with an effect execution under flag `polling`; the server's successive
replies are drawn from `responses`. -/
def pollRun : List JobStatus → Bool → List JobStatus × Bool
  | [], polling => ([], polling)
  | s :: rest, polling =>
    if polling then
      -- The fetch observes `s`; a terminal `s` flips `polling` and re-runs
      -- the effect (one more initial fetch), a non-terminal `s` leaves the
      -- interval ticking: either way the loop continues under the new flag.
      let r := pollRun rest (handleResponse polling s)
      (s :: r.1, r.2)
    else
      -- Effect re-run with `polling = false`: the initial `poll()` still
      -- fires once, no interval is started, and a repeated `setPolling
      -- false` does not change the dependency, so no further effect run.
      ([s], handleResponse polling s)

/-! ## Claim theorems -/

/-- C1: under an enabled word-count rule with configured minimum N ∈ [1,20],
an empty or whitespace-only cell produces exactly `"NULL VALUE"` (never the
too-short message); otherwise the cell is split on runs of whitespace and a
token count strictly below N produces `"Too short (<N words)"`; a cell with
exactly N tokens produces no message; at most one of the two messages is ever
produced for one cell. -/
theorem wordCount_rule_correct (N : Int) (cell : String)
    (h1 : 1 ≤ N) (h2 : N ≤ 20) :
    (cell.data.all Char.isWhitespace = true →
      wordCountMessages N cell = ["NULL VALUE"])
    ∧ (¬ cell.data.all Char.isWhitespace = true →
        ((words cell.data).length : Int) < N →
        wordCountMessages N cell = ["Too short (<" ++ toString N ++ " words)"])
    ∧ (((words cell.data).length : Int) = N → wordCountMessages N cell = [])
    ∧ (wordCountMessages N cell).length ≤ 1 := by
  have hnil := words_eq_nil_iff cell.data
  by_cases hb : words cell.data = []
  · have hw : cell.data.all Char.isWhitespace = true := hnil.mp hb
    refine ⟨fun _ => ?_, fun hnw => absurd hw hnw, fun hlen => ?_, ?_⟩
    · simp [wordCountMessages, hb]
    · rw [hb] at hlen; simp at hlen; omega
    · simp [wordCountMessages, hb]
  · have hw : ¬ cell.data.all Char.isWhitespace = true := fun h => hb (hnil.mpr h)
    have hne : (words cell.data).isEmpty = false := by
      cases hx : words cell.data with
      | nil => exact absurd hx hb
      | cons a as => rfl
    refine ⟨fun h => absurd h hw, fun _ hlt => ?_, fun hlen => ?_, ?_⟩
    · simp [wordCountMessages, hne, hlt]
    · simp [wordCountMessages, hne, hlen.ge.not_lt]
    · by_cases hlt : ((words cell.data).length : Int) < N
      · simp [wordCountMessages, hne, hlt]
      · simp [wordCountMessages, hne, hlt]

theorem wordCount_rule_correct_witness :
    (1 : Int) ≤ 3 ∧ (3 : Int) ≤ 20
    ∧ wordCountMessages 3 "   " = ["NULL VALUE"]
    ∧ wordCountMessages 3 "ok then" = ["Too short (<3 words)"]
    ∧ wordCountMessages 3 "a b c" = [] :=
  ⟨by decide, by decide,
    (wordCount_rule_correct 3 "   " (by decide) (by decide)).1 (by decide),
    (wordCount_rule_correct 3 "ok then" (by decide) (by decide)).2.1
      (by decide) (by decide),
    (wordCount_rule_correct 3 "a b c" (by decide) (by decide)).2.2.1 (by decide)⟩

/-- C4: a row that fails a target's filter verdict gets exactly `"[]"` in
that target's mistake column, regardless of what the word-count and
keyword-flag rules would have produced (full suppression). -/
theorem filtered_row_not_flagged (name : String) (t : TargetConfig) (row : Row)
    (h : filterVerdict t row = false) : targetMistake name t row = "[]" := by
  simp [targetMistake, h]

theorem filtered_row_not_flagged_witness :
    filterVerdict
        ⟨false, "", true, 3, ⟨true, .ANY, ["urgent", "help"], false, false⟩,
          true, [("Status", ["Open"])], false, [], .AND⟩
        [("Enquiry", "ok"), ("Status", "Closed")] = false
    ∧ targetMistake "Enquiry"
        ⟨false, "", true, 3, ⟨true, .ANY, ["urgent", "help"], false, false⟩,
          true, [("Status", ["Open"])], false, [], .AND⟩
        [("Enquiry", "ok"), ("Status", "Closed")] = "[]" :=
  ⟨by decide,
    filtered_row_not_flagged "Enquiry"
      ⟨false, "", true, 3, ⟨true, .ANY, ["urgent", "help"], false, false⟩,
        true, [("Status", ["Open"])], false, [], .AND⟩
      [("Enquiry", "ok"), ("Status", "Closed")] (by decide)⟩

/-- C8: `auditDataset` is deterministic — two calls on identical rows,
columns and targets configuration return identical outputs (annotated rows
and per-target counts alike). -/
theorem auditDataset_deterministic (c₁ c₂ : List String) (r₁ r₂ : List Row)
    (t₁ t₂ : List (String × TargetConfig))
    (hc : c₁ = c₂) (hr : r₁ = r₂) (ht : t₁ = t₂) :
    auditDataset c₁ r₁ t₁ = auditDataset c₂ r₂ t₂ := by
  subst hc; subst hr; subst ht; rfl

theorem auditDataset_deterministic_witness :
    auditDataset ["Enquiry"] [[("Enquiry", "ok")]]
        [("Enquiry", ⟨false, "", true, 3,
          ⟨false, .ANY, [], false, false⟩, false, [], false, [], .AND⟩)]
      = auditDataset ["Enquiry"] [[("Enquiry", "ok")]]
        [("Enquiry", ⟨false, "", true, 3,
          ⟨false, .ANY, [], false, false⟩, false, [], false, [], .AND⟩)] :=
  auditDataset_deterministic _ _ _ _ _ _ rfl rfl rfl

/-- C2: for an enabled keyword-flag rule, per-phrase containment results are
combined with the mode — ANY fires when at least one phrase matches, ALL only
when every phrase matches — and the emitted message is `"Keyword flag: <...>"`
listing exactly the matching phrases, comma-joined, in configured order; in
particular ANY with `["urgent","help"]` on `"need help now"` lists only
`"help"`, and ALL on the same cell emits nothing. -/
theorem keywordFlag_rule_correct (cfg : KeywordFlagCfg) (cell : String)
    (hen : cfg.enabled = true) :
    (cfg.mode = .ANY →
      (keywordFlagMessages cfg cell ≠ [] ↔
        ∃ p ∈ cfg.phrases,
          phraseMatches cfg.caseSensitive cfg.wholeWord p cell = true))
    ∧ (cfg.mode = .ALL →
      (keywordFlagMessages cfg cell ≠ [] ↔
        ∀ p ∈ cfg.phrases,
          phraseMatches cfg.caseSensitive cfg.wholeWord p cell = true))
    ∧ (∀ m ∈ keywordFlagMessages cfg cell,
        m = "Keyword flag: " ++ String.intercalate ", "
          (cfg.phrases.filter
            (fun p => phraseMatches cfg.caseSensitive cfg.wholeWord p cell)))
    ∧ (keywordFlagMessages cfg cell).length ≤ 1
    ∧ keywordFlagMessages ⟨true, .ANY, ["urgent", "help"], false, false⟩
        "need help now" = ["Keyword flag: help"]
    ∧ keywordFlagMessages ⟨true, .ALL, ["urgent", "help"], false, false⟩
        "need help now" = [] := by
  have hkw : keywordFlagMessages cfg cell =
      (if modeHolds cfg.mode (cfg.phrases.map
            (fun p => phraseMatches cfg.caseSensitive cfg.wholeWord p cell))
        then ["Keyword flag: " ++ String.intercalate ", "
          (cfg.phrases.filter
            (fun p => phraseMatches cfg.caseSensitive cfg.wholeWord p cell))]
        else []) := by
    simp [keywordFlagMessages, hen]
  refine ⟨?_, ?_, ?_, ?_, by decide, by decide⟩
  · intro hm
    rw [hkw, hm]
    simp only [modeHolds]
    by_cases h : (cfg.phrases.map
        (fun p => phraseMatches cfg.caseSensitive cfg.wholeWord p cell)).any id
    · rw [if_pos h]
      simp only [List.any_map, List.any_eq_true, Function.comp, id] at h
      simpa using h
    · rw [if_neg h]
      simp only [List.any_map, List.any_eq_true, Function.comp, id] at h
      simpa using h
  · intro hm
    rw [hkw, hm]
    simp only [modeHolds]
    by_cases h : (cfg.phrases.map
        (fun p => phraseMatches cfg.caseSensitive cfg.wholeWord p cell)).all id
    · rw [if_pos h]
      simp only [List.all_map, List.all_eq_true, Function.comp, id] at h
      simpa using h
    · rw [if_neg h]
      simp only [List.all_map, List.all_eq_true, Function.comp, id] at h
      simpa using h
  · rw [hkw]
    by_cases h : modeHolds cfg.mode (cfg.phrases.map
        (fun p => phraseMatches cfg.caseSensitive cfg.wholeWord p cell))
    · rw [if_pos h]; intro m hm; simpa using hm
    · rw [if_neg h]; intro m hm; simp at hm
  · rw [hkw]
    by_cases h : modeHolds cfg.mode (cfg.phrases.map
        (fun p => phraseMatches cfg.caseSensitive cfg.wholeWord p cell))
    · rw [if_pos h]; simp
    · rw [if_neg h]; simp

theorem keywordFlag_rule_correct_witness :
    keywordFlagMessages ⟨true, .ANY, ["urgent", "help"], false, false⟩
        "need help now" ≠ [] :=
  ((keywordFlag_rule_correct
      ⟨true, .ANY, ["urgent", "help"], false, false⟩ "need help now" rfl).1
    rfl).mpr ⟨"help", by decide, by decide⟩

/-- C3: the filter verdict is computed over one pool of predicates — one per
enabled value-filter column with a non-empty allow-set and one per enabled
text-filter column with a non-empty phrase-set — combined by `filterMode`
(AND: all must pass; OR: at least one); an empty pool (in particular, all
allow-sets and phrase-sets empty) passes the row unconditionally. -/
theorem filterVerdict_single_pool (t : TargetConfig) (row : Row) :
    (filterPredicates t row = [] → filterVerdict t row = true)
    ∧ (t.filterMode = .AND →
        (filterVerdict t row = true ↔ ∀ b ∈ filterPredicates t row, b = true))
    ∧ (t.filterMode = .OR → filterPredicates t row ≠ [] →
        (filterVerdict t row = true ↔ ∃ b ∈ filterPredicates t row, b = true))
    ∧ ((∀ p ∈ t.filters, p.2 = []) → (∀ p ∈ t.textFilters, p.2.phrases = []) →
        filterVerdict t row = true) := by
  have base : filterPredicates t row = [] → filterVerdict t row = true := by
    intro h; simp [filterVerdict, h]
  refine ⟨base, ?_, ?_, ?_⟩
  · intro hm
    cases he : filterPredicates t row with
    | nil => simp [base he, he]
    | cons b bs =>
      have hne : (filterPredicates t row).isEmpty = false := by simp [he]
      have hv : filterVerdict t row = (filterPredicates t row).all id := by
        simp [filterVerdict, hne, hm]
      rw [hv, List.all_eq_true]
      simp only [id_eq]
      rw [he]
  · intro hm hne'
    cases he : filterPredicates t row with
    | nil => exact absurd he hne'
    | cons b bs =>
      have hne : (filterPredicates t row).isEmpty = false := by simp [he]
      have hv : filterVerdict t row = (filterPredicates t row).any id := by
        simp [filterVerdict, hne, hm]
      rw [hv, List.any_eq_true]
      simp only [id_eq]
      rw [he]
  · intro h1 h2
    apply base
    have e1 : t.filters.filter (fun p => !p.2.isEmpty) = [] := by
      rw [List.filter_eq_nil_iff]
      intro p hp; simp [h1 p hp]
    have e2 : t.textFilters.filter (fun p => !p.2.phrases.isEmpty) = [] := by
      rw [List.filter_eq_nil_iff]
      intro p hp; simp [h2 p hp]
    unfold filterPredicates
    cases t.valueFilterEnabled <;> cases t.textFilterEnabled <;> simp [e1, e2]

theorem filterVerdict_single_pool_witness :
    filterVerdict
        ⟨false, "", false, 7, ⟨false, .ANY, [], false, false⟩,
          true, [("Status", ["Open"])], false, [], .AND⟩
        [("Status", "Open")] = true :=
  ((filterVerdict_single_pool
      ⟨false, "", false, 7, ⟨false, .ANY, [], false, false⟩,
        true, [("Status", ["Open"])], false, [], .AND⟩
      [("Status", "Open")]).2.1 rfl).mpr (by decide)

/-- C9: every value stored by the Step 2 word-count slider lies in [1,20]
(non-numeric or zero input falls back to 7 before the clamp), the `wc_min`
field after any sequence of slider interactions lies in [1,20], and for
slider-set values the engine's out-of-range word-count configuration error is
unreachable — any validation error is the missing-column one. -/
theorem sliderStore_wcMin_invariant :
    (∀ v : Option Int, 1 ≤ sliderStore v ∧ sliderStore v ≤ 20)
    ∧ (∀ inputs : List (Option Int),
        1 ≤ wcMinAfterSliders inputs ∧ wcMinAfterSliders inputs ≤ 20)
    ∧ (∀ (cols : List String) (ts : List (String × TargetConfig)),
        (∀ p ∈ ts, ∃ v, p.2.wordCountMin = sliderStore v) →
        ∀ e, validateTargets cols ts = some e →
          ∃ n, e = "Selected target column not found in Excel: " ++ n) := by
  have hb : ∀ v : Option Int, 1 ≤ sliderStore v ∧ sliderStore v ≤ 20 := by
    intro v
    cases v with
    | none => exact ⟨by decide, by decide⟩
    | some k =>
      simp only [sliderStore]
      by_cases hk : k = 0
      · rw [if_pos hk]; exact ⟨by decide, by decide⟩
      · rw [if_neg hk]
        exact ⟨le_max_left 1 _, max_le (by norm_num) (min_le_left 20 _)⟩
  have hfold : ∀ (inputs : List (Option Int)) (init : Int),
      1 ≤ init → init ≤ 20 →
      1 ≤ inputs.foldl (fun _ v => sliderStore v) init
        ∧ inputs.foldl (fun _ v => sliderStore v) init ≤ 20 := by
    intro inputs
    induction inputs with
    | nil => intro init h1 h2; exact ⟨h1, h2⟩
    | cons v vs ih =>
      intro init _ _
      simpa only [List.foldl_cons] using ih (sliderStore v) (hb v).1 (hb v).2
  refine ⟨hb, ?_, ?_⟩
  · intro inputs
    simpa only [wcMinAfterSliders] using hfold inputs 7 (by decide) (by decide)
  · intro cols ts
    induction ts with
    | nil => intro _ e he; simp [validateTargets] at he
    | cons p rest ih =>
      intro hall e he
      obtain ⟨n, t⟩ := p
      rw [validateTargets] at he
      by_cases hc : cols.contains n
      · have hm : n ∈ cols := by simpa using hc
        rw [if_neg (by simp [hm])] at he
        obtain ⟨v, hv⟩ := hall (n, t) (List.mem_cons_self _ _)
        obtain ⟨hl, hr⟩ := hb v
        have h1' : ¬ (t.wordCountMin < 1) := by rw [hv]; omega
        have h2' : ¬ (20 < t.wordCountMin) := by rw [hv]; omega
        rw [if_neg (by simp [h1', h2'])] at he
        exact ih (fun q hq => hall q (List.mem_cons_of_mem _ hq)) e he
      · have hcf : n ∉ cols := by simpa using hc
        rw [if_pos (by simp [hcf])] at he
        exact ⟨n, (Option.some.inj he).symm⟩

theorem sliderStore_wcMin_invariant_witness :
    1 ≤ sliderStore (some 25) ∧ sliderStore (some 25) ≤ 20 :=
  sliderStore_wcMin_invariant.1 (some 25)

/-- C10 counterexample: on the response stream `[SUCCEEDED, SUCCEEDED]` the
page's first fetch already observes a terminal status, so under the claim no
further request would be issued (exactly one request in total); the code's
effect re-run issues a second request. -/
theorem poll_extra_request_counterexample :
    pollRun [JobStatus.SUCCEEDED, JobStatus.SUCCEEDED] true
      = ([JobStatus.SUCCEEDED, JobStatus.SUCCEEDED], false)
    ∧ ¬ (pollRun [JobStatus.SUCCEEDED, JobStatus.SUCCEEDED] true).1.length ≤ 1 := by
  decide

theorem pollRun_false_length (rs : List JobStatus) :
    (pollRun rs false).1.length ≤ 1 := by
  cases rs with
  | nil => simp [pollRun]
  | cons s r => simp [pollRun]

theorem pollRun_false_flag (rs : List JobStatus) :
    (pollRun rs false).2 = false := by
  cases rs with
  | nil => rfl
  | cons s r => simp [pollRun, handleResponse]

theorem pollRun_terminal_bound (rs : List JobStatus) :
    ∀ (p : Bool) (i : Nat) (s : JobStatus),
      (pollRun rs p).1.get? i = some s → isTerminal s = true →
      (pollRun rs p).1.length ≤ i + 2 := by
  induction rs with
  | nil => intro p i s h _; simp [pollRun] at h
  | cons a rest ih =>
    intro p i s h ht
    cases p with
    | false =>
      have : (pollRun (a :: rest) false).1 = [a] := by simp [pollRun]
      rw [this]
      simp
    | true =>
      have hout : (pollRun (a :: rest) true).1
          = a :: (pollRun rest (handleResponse true a)).1 := by
        simp [pollRun]
      rw [hout] at h ⊢
      cases i with
      | zero =>
        have ha : a = s := by simpa using h
        have hterm : isTerminal a = true := ha ▸ ht
        have hflag : handleResponse true a = false := by
          simp [handleResponse, hterm]
        rw [hflag]
        have := pollRun_false_length rest
        simp only [List.length_cons]
        omega
      | succ j =>
        have htail := ih (handleResponse true a) j s (by simpa using h) ht
        simp only [List.length_cons]
        omega

theorem pollRun_flag_false_of_terminal (rs : List JobStatus) :
    ∀ p : Bool, (∃ s ∈ (pollRun rs p).1, isTerminal s = true) →
      (pollRun rs p).2 = false := by
  induction rs with
  | nil => intro p h; simp [pollRun] at h
  | cons a rest ih =>
    intro p h
    cases p with
    | false => exact pollRun_false_flag (a :: rest)
    | true =>
      have hsnd : (pollRun (a :: rest) true).2
          = (pollRun rest (handleResponse true a)).2 := by
        simp [pollRun]
      rw [hsnd]
      by_cases ha : isTerminal a = true
      · rw [show handleResponse true a = false by simp [handleResponse, ha]]
        exact pollRun_false_flag rest
      · obtain ⟨s, hs, hts⟩ := h
        have hout : (pollRun (a :: rest) true).1
            = a :: (pollRun rest (handleResponse true a)).1 := by
          simp [pollRun]
        rw [hout] at hs
        rcases List.mem_cons.mp hs with rfl | hs'
        · exact absurd hts ha
        · exact ih (handleResponse true a) ⟨s, hs', hts⟩

/-- C10 (amended): once a poll observes a terminal status (SUCCEEDED or
FAILED) the polling flag is set false and the 1-second interval is cleared,
but the effect re-run triggered by the flag change still issues one more
status request: at most one further request follows a terminal observation
(none after that, absent an explicit user restart), and the polling flag ends
false. -/
theorem poll_stops_after_terminal (responses : List JobStatus) :
    (∀ (i : Nat) (s : JobStatus),
      (pollRun responses true).1.get? i = some s → isTerminal s = true →
      (pollRun responses true).1.length ≤ i + 2)
    ∧ ((∃ s ∈ (pollRun responses true).1, isTerminal s = true) →
        (pollRun responses true).2 = false) :=
  ⟨fun i s h ht => pollRun_terminal_bound responses true i s h ht,
   fun h => pollRun_flag_false_of_terminal responses true h⟩

theorem poll_stops_after_terminal_witness :
    (pollRun [JobStatus.RUNNING, JobStatus.SUCCEEDED, JobStatus.SUCCEEDED]
      true).2 = false :=
  (poll_stops_after_terminal
      [JobStatus.RUNNING, JobStatus.SUCCEEDED, JobStatus.SUCCEEDED]).2
    ⟨JobStatus.SUCCEEDED, by decide, rfl⟩

/-- A word-count-only target configuration with minimum `m`, used as concrete
test data. -/
def wcTarget (m : Int) : TargetConfig :=
  ⟨false, "", true, m, ⟨false, .ANY, [], false, false⟩, false, [], false, [], .AND⟩

/-- C5: a successful audit retains exactly the annotated rows in which at
least one mistake column differs from `"[]"` (so `rows_kept` equals the count
of such rows), preserves input row order among retained rows, appends to each
retained row one `"<Target> Mistakes"` column per configured target in
target-declaration order after all original columns, and every mistake cell
is either `"[]"` or the non-empty messages joined with `"; "`. -/
theorem auditDataset_retention (columns : List String) (rows : List Row)
    (ts : List (String × TargetConfig)) (out : List Row × List (String × Nat))
    (h : auditDataset columns rows ts = .ok out) :
    out.1 = (rows.map (annotateRow ts)).filter (rowFlagged ts)
    ∧ out.1.length = (rows.map (annotateRow ts)).countP (rowFlagged ts)
    ∧ out.1.Sublist (rows.map (annotateRow ts))
    ∧ (∀ r ∈ out.1, rowFlagged ts r = true)
    ∧ (∀ row ∈ rows, rowFlagged ts (annotateRow ts row) = true →
        annotateRow ts row ∈ out.1)
    ∧ (∀ r ∈ out.1, ∃ row ∈ rows,
        r = row ++ ts.map (fun p => (mistakeColumn p.1, targetMistake p.1 p.2 row)))
    ∧ (∀ (row : Row) (name : String) (t : TargetConfig), (name, t) ∈ ts →
        targetMistake name t row = "[]"
        ∨ ∃ msgs : List String, msgs ≠ []
            ∧ targetMistake name t row = String.intercalate "; " msgs) := by
  have hout : out.1 = (rows.map (annotateRow ts)).filter (rowFlagged ts) := by
    cases hv : validateTargets columns ts with
    | some e => simp [auditDataset, hv] at h
    | none =>
      simp only [auditDataset, hv] at h
      injection h with h2
      rw [← h2]
  refine ⟨hout, ?_, ?_, ?_, ?_, ?_, ?_⟩
  · rw [hout, List.countP_eq_length_filter]
  · rw [hout]; exact List.filter_sublist _
  · rw [hout]; intro r hr; exact (List.mem_filter.mp hr).2
  · intro row hrow hfl
    rw [hout]
    exact List.mem_filter.mpr ⟨List.mem_map_of_mem _ hrow, hfl⟩
  · intro r hr
    rw [hout] at hr
    obtain ⟨row, hrow, rfl⟩ := List.mem_map.mp (List.mem_filter.mp hr).1
    exact ⟨row, hrow, rfl⟩
  · intro row name t _
    by_cases hv : filterVerdict t row
    · simp only [targetMistake, if_pos hv]
      by_cases hm : (evalTargetMessages t (rowGet row name)).isEmpty
      · left; simp [serializeMessages, hm]
      · right
        exact ⟨evalTargetMessages t (rowGet row name), by simpa using hm,
          by simp [serializeMessages, hm]⟩
    · left; simp only [targetMistake, if_neg hv]

theorem auditDataset_retention_witness :
    ((⟨[[("Enquiry", "ok"), ("Enquiry Mistakes", "Too short (<3 words)")]],
        [("Enquiry", 1)]⟩ : List Row × List (String × Nat))).1.length
      = (([[("Enquiry", "ok")], [("Enquiry", "a b c")]].map
          (annotateRow [("Enquiry", wcTarget 3)])).countP
          (rowFlagged [("Enquiry", wcTarget 3)])) :=
  (auditDataset_retention ["Enquiry"]
    [[("Enquiry", "ok")], [("Enquiry", "a b c")]] [("Enquiry", wcTarget 3)]
    ⟨[[("Enquiry", "ok"), ("Enquiry Mistakes", "Too short (<3 words)")]],
      [("Enquiry", 1)]⟩ rfl).2.1

theorem validateTargets_some_iff (cols : List String) :
    ∀ ts : List (String × TargetConfig),
      (∃ e, validateTargets cols ts = some e) ↔
        ∃ p ∈ ts, p.1 ∉ cols
          ∨ (p.2.wordCountEnabled = true
              ∧ (p.2.wordCountMin < 1 ∨ 20 < p.2.wordCountMin)) := by
  intro ts
  induction ts with
  | nil => simp [validateTargets]
  | cons p rest ih =>
    obtain ⟨n, t⟩ := p
    rw [validateTargets]
    by_cases hc : cols.contains n
    · have hm : n ∈ cols := by simpa using hc
      rw [if_neg (by simp [hm])]
      by_cases hw : (t.wordCountEnabled
          && (decide (t.wordCountMin < 1) || decide (20 < t.wordCountMin))) = true
      · rw [if_pos hw]
        simp only [Bool.and_eq_true, Bool.or_eq_true, decide_eq_true_eq] at hw
        constructor
        · intro _
          exact ⟨(n, t), List.mem_cons_self _ _, Or.inr ⟨hw.1, hw.2⟩⟩
        · intro _; exact ⟨_, rfl⟩
      · rw [if_neg hw]
        rw [ih]
        simp only [Bool.and_eq_true, Bool.or_eq_true, decide_eq_true_eq,
          not_and, not_or] at hw
        constructor
        · rintro ⟨p, hp, hoff⟩
          exact ⟨p, List.mem_cons_of_mem _ hp, hoff⟩
        · rintro ⟨p, hp, hoff⟩
          rcases List.mem_cons.mp hp with rfl | hp'
          · rcases hoff with hmiss | ⟨hwc, hrange⟩
            · exact absurd hm hmiss
            · rcases hrange with h1 | h2
              · exact absurd h1 (hw hwc).1
              · exact absurd h2 (hw hwc).2
          · exact ⟨p, hp', hoff⟩
    · have hm : n ∉ cols := by simpa using hc
      rw [if_pos (by simp [hm])]
      constructor
      · intro _
        exact ⟨(n, t), List.mem_cons_self _ _, Or.inl hm⟩
      · intro _; exact ⟨_, rfl⟩

theorem validateTargets_error_text (cols : List String) :
    ∀ (ts : List (String × TargetConfig)) (e : String),
      validateTargets cols ts = some e →
      ∃ p ∈ ts,
        e = "Selected target column not found in Excel: " ++ p.1
        ∨ e = "'" ++ p.1 ++ "' word-count minimum must be between 1 and 20." := by
  intro ts
  induction ts with
  | nil => intro e he; simp [validateTargets] at he
  | cons p rest ih =>
    intro e he
    obtain ⟨n, t⟩ := p
    rw [validateTargets] at he
    by_cases hc : cols.contains n
    · have hm : n ∈ cols := by simpa using hc
      rw [if_neg (by simp [hm])] at he
      by_cases hw : (t.wordCountEnabled
          && (decide (t.wordCountMin < 1) || decide (20 < t.wordCountMin))) = true
      · rw [if_pos hw] at he
        exact ⟨(n, t), List.mem_cons_self _ _,
          Or.inr (Option.some.inj he).symm⟩
      · rw [if_neg hw] at he
        obtain ⟨p, hp, htext⟩ := ih e he
        exact ⟨p, List.mem_cons_of_mem _ hp, htext⟩
    · have hm : n ∉ cols := by simpa using hc
      rw [if_pos (by simp [hm])] at he
      exact ⟨(n, t), List.mem_cons_self _ _, Or.inl (Option.some.inj he).symm⟩

/-- C6: an audit run fails with a configuration error exactly when some
configured target column is missing from the dataset columns or some target
has word-count enabled with `wordCountMin` outside [1,20]; the check is
independent of the rows (it happens up front, not per row); the error names
the offending column, with the exact text
`"Selected target column not found in Excel: <col>"` for a missing column;
and a job running such an audit ends FAILED with that error text recorded
verbatim. -/
theorem config_error_iff (columns : List String) (rows : List Row)
    (ts : List (String × TargetConfig)) :
    ((∃ e, auditDataset columns rows ts = .error e) ↔
      ∃ p ∈ ts, p.1 ∉ columns
        ∨ (p.2.wordCountEnabled = true
            ∧ (p.2.wordCountMin < 1 ∨ 20 < p.2.wordCountMin)))
    ∧ (∀ rows', errOf (auditDataset columns rows ts)
        = errOf (auditDataset columns rows' ts))
    ∧ (∀ e, auditDataset columns rows ts = .error e →
        ∃ p ∈ ts,
          e = "Selected target column not found in Excel: " ++ p.1
          ∨ e = "'" ++ p.1 ++ "' word-count minimum must be between 1 and 20.")
    ∧ (∀ n t rest, ts = (n, t) :: rest → n ∉ columns →
        auditDataset columns rows ts
          = .error ("Selected target column not found in Excel: " ++ n))
    ∧ (∀ e, auditDataset columns rows ts = .error e →
        (runJobTrace columns rows ts).getLast?
          = some ⟨.FAILED, 0, some e⟩) := by
  have herr : ∀ rows' : List Row,
      ∀ e, auditDataset columns rows' ts = .error e ↔
        validateTargets columns ts = some e := by
    intro rows' e
    cases hv : validateTargets columns ts with
    | some e' => simp [auditDataset, hv]
    | none => simp [auditDataset, hv]
  refine ⟨?_, ?_, ?_, ?_, ?_⟩
  · rw [← validateTargets_some_iff columns ts]
    exact exists_congr (herr rows)
  · intro rows'
    cases hv : validateTargets columns ts with
    | some e' => simp [errOf, auditDataset, hv]
    | none => simp [errOf, auditDataset, hv]
  · intro e he
    exact validateTargets_error_text columns ts e ((herr rows e).mp he)
  · intro n t rest hts hn
    subst hts
    have hv : validateTargets columns ((n, t) :: rest)
        = some ("Selected target column not found in Excel: " ++ n) := by
      rw [validateTargets, if_pos (by simp [hn])]
    exact (herr rows _).mpr hv
  · intro e he
    simp [runJobTrace, he]

theorem config_error_iff_witness :
    auditDataset ["Bar"] [] [("Foo", wcTarget 7)]
      = .error "Selected target column not found in Excel: Foo" :=
  (config_error_iff ["Bar"] [] [("Foo", wcTarget 7)]).2.2.2.1
    "Foo" (wcTarget 7) [] rfl (by decide)

theorem mem_runUpdates {n : Nat} {r : JobRecord}
    (h : r ∈ (List.range n).map
        (fun i => (⟨.RUNNING, ((i + 1) * 100) / max 1 n, none⟩ : JobRecord))) :
    r.status = .RUNNING ∧ r.progress ≤ 100 := by
  obtain ⟨i, hi, rfl⟩ := List.mem_map.mp h
  refine ⟨rfl, ?_⟩
  have hin : i < n := List.mem_range.mp hi
  have hpos : 0 < max 1 n := lt_of_lt_of_le Nat.one_pos (le_max_left 1 n)
  calc ((i + 1) * 100) / max 1 n
      ≤ ((max 1 n) * 100) / max 1 n :=
        Nat.div_le_div_right
          (Nat.mul_le_mul_right 100 (le_trans hin (le_max_right 1 n)))
    _ = 100 := Nat.mul_div_cancel_left 100 hpos

theorem chain'_runUpdates (n : Nat) :
    List.Chain' jobStepOk ((List.range n).map
      (fun i => (⟨.RUNNING, ((i + 1) * 100) / max 1 n, none⟩ : JobRecord))) := by
  rw [List.chain'_map]
  cases n with
  | zero => simp
  | succ m =>
    rw [List.chain'_range_succ]
    intro i _
    exact ⟨trivial,
      Nat.div_le_div_right (Nat.mul_le_mul_right 100 (by omega))⟩

theorem chain'_no_terminal_mid {l : List JobRecord}
    (hc : List.Chain' jobStepOk l) :
    ∀ (i : Nat) (r r' : JobRecord), l.get? i = some r →
      l.get? (i + 1) = some r' →
      r.status ≠ .SUCCEEDED ∧ r.status ≠ .FAILED := by
  intro i r r' hr hr'
  obtain ⟨hi0, hg0⟩ := List.get?_eq_some.mp hr
  obtain ⟨hi1, hg1⟩ := List.get?_eq_some.mp hr'
  have hstep := List.chain'_iff_get.mp hc i (by omega)
  rw [hg0, hg1] at hstep
  obtain ⟨h1, -⟩ := hstep
  constructor
  · intro hs
    rw [hs] at h1
    cases hs' : r'.status <;> rw [hs'] at h1 <;> exact h1.elim
  · intro hs
    rw [hs] at h1
    cases hs' : r'.status <;> rw [hs'] at h1 <;> exact h1.elim

/-- C7: a job's trace only moves along PENDING → RUNNING → SUCCEEDED or
PENDING → RUNNING → FAILED, no step leaves a terminal state (a terminal
record can only be the last), progress is a natural number ≤ 100 that never
decreases across successive updates, and a trace ending SUCCEEDED ends with
progress 100. -/
theorem job_state_machine (columns : List String) (rows : List Row)
    (ts : List (String × TargetConfig)) :
    List.Chain' jobStepOk (runJobTrace columns rows ts)
    ∧ (∀ r ∈ runJobTrace columns rows ts, r.progress ≤ 100)
    ∧ (runJobTrace columns rows ts).head? = some ⟨.PENDING, 0, none⟩
    ∧ (∀ r, (runJobTrace columns rows ts).getLast? = some r →
        r.status = .SUCCEEDED → r.progress = 100)
    ∧ (∀ (i : Nat) (r r' : JobRecord),
        (runJobTrace columns rows ts).get? i = some r →
        (runJobTrace columns rows ts).get? (i + 1) = some r' →
        r.status ≠ .SUCCEEDED ∧ r.status ≠ .FAILED) := by
  cases h : auditDataset columns rows ts with
  | error e =>
    have htr : runJobTrace columns rows ts
        = [⟨.PENDING, 0, none⟩, ⟨.RUNNING, 0, none⟩, ⟨.FAILED, 0, some e⟩] := by
      simp [runJobTrace, h]
    rw [htr]
    have hchain : List.Chain' jobStepOk
        [(⟨.PENDING, 0, none⟩ : JobRecord), ⟨.RUNNING, 0, none⟩,
          ⟨.FAILED, 0, some e⟩] :=
      List.chain'_cons.mpr ⟨⟨trivial, Nat.le_refl 0⟩,
        List.chain'_cons.mpr ⟨⟨trivial, Nat.le_refl 0⟩,
          List.chain'_singleton _⟩⟩
    refine ⟨hchain, ?_, rfl, ?_, chain'_no_terminal_mid hchain⟩
    · intro r hr
      simp only [List.mem_cons, List.not_mem_nil, or_false] at hr
      rcases hr with rfl | rfl | rfl
      · exact Nat.zero_le _
      · exact Nat.zero_le _
      · exact Nat.zero_le _
    · intro r hlast hs
      have : r = ⟨.FAILED, 0, some e⟩ := by
        have : ([(⟨.PENDING, 0, none⟩ : JobRecord), ⟨.RUNNING, 0, none⟩,
            ⟨.FAILED, 0, some e⟩]).getLast? = some ⟨.FAILED, 0, some e⟩ := rfl
        rw [this] at hlast
        exact (Option.some.inj hlast).symm
      rw [this] at hs
      simp at hs
  | ok res =>
    have htr : runJobTrace columns rows ts
        = ([⟨.PENDING, 0, none⟩, ⟨.RUNNING, 0, none⟩]
            ++ (List.range rows.length).map
              (fun i => (⟨.RUNNING, ((i + 1) * 100) / max 1 rows.length,
                none⟩ : JobRecord)))
          ++ [⟨.SUCCEEDED, 100, none⟩] := by
      simp [runJobTrace, h]
    rw [htr]
    have hupd : ∀ r ∈ (List.range rows.length).map
        (fun i => (⟨.RUNNING, ((i + 1) * 100) / max 1 rows.length,
          none⟩ : JobRecord)),
        r.status = .RUNNING ∧ r.progress ≤ 100 :=
      fun r hr => mem_runUpdates hr
    have hchain : List.Chain' jobStepOk
        (([⟨.PENDING, 0, none⟩, ⟨.RUNNING, 0, none⟩]
            ++ (List.range rows.length).map
              (fun i => (⟨.RUNNING, ((i + 1) * 100) / max 1 rows.length,
                none⟩ : JobRecord)))
          ++ [⟨.SUCCEEDED, 100, none⟩]) := by
      rw [List.chain'_append]
      refine ⟨?_, List.chain'_singleton _, ?_⟩
      · rw [List.chain'_append]
        refine ⟨List.chain'_cons.mpr ⟨⟨trivial, Nat.le_refl 0⟩,
          List.chain'_singleton _⟩, chain'_runUpdates rows.length, ?_⟩
        intro x hx y hy
        have hx' : x = ⟨.RUNNING, 0, none⟩ := by
          have hh := hx; simp at hh; exact hh.symm
        have hy' := hupd y (List.mem_of_mem_head? hy)
        rw [hx']
        refine ⟨?_, Nat.zero_le _⟩
        rw [show (⟨JobStatus.RUNNING, 0, none⟩ : JobRecord).status
          = JobStatus.RUNNING from rfl, hy'.1]
        trivial
      · intro x hx y hy
        have hy' : y = ⟨.SUCCEEDED, 100, none⟩ := by
          have hh := hy; simp at hh; exact hh.symm
        rw [hy']
        cases hu : (List.range rows.length).map
            (fun i => (⟨.RUNNING, ((i + 1) * 100) / max 1 rows.length,
              none⟩ : JobRecord)) with
        | nil =>
          rw [hu] at hx
          have hx' : x = ⟨.RUNNING, 0, none⟩ := by
            have hh := hx; simp at hh; exact hh.symm
          rw [hx']
          exact ⟨trivial, Nat.zero_le _⟩
        | cons u us =>
          rw [hu] at hx
          rw [List.getLast?_append_of_ne_nil _ (by simp)] at hx
          have hxm : x ∈ u :: us := List.mem_of_mem_getLast? hx
          have hx' := hupd x (by rw [hu]; exact hxm)
          refine ⟨?_, hx'.2⟩
          rw [hx'.1]
          trivial
    refine ⟨hchain, ?_, rfl, ?_, chain'_no_terminal_mid hchain⟩
    · intro r hr
      rcases List.mem_append.mp hr with hr1 | hr2
      · rcases List.mem_append.mp hr1 with hs | hupd'
        · simp only [List.mem_cons, List.not_mem_nil, or_false] at hs
          rcases hs with rfl | rfl
          · exact Nat.zero_le _
          · exact Nat.zero_le _
        · exact (hupd r hupd').2
      · simp only [List.mem_cons, List.not_mem_nil, or_false] at hr2
        rw [hr2]
    · intro r hlast hs
      rw [List.getLast?_concat] at hlast
      rw [(Option.some.inj hlast).symm]

theorem job_state_machine_witness :
    (runJobTrace ["Enquiry"] [[("Enquiry", "a b c")]]
      [("Enquiry", wcTarget 3)]).head? = some ⟨.PENDING, 0, none⟩ :=
  (job_state_machine ["Enquiry"] [[("Enquiry", "a b c")]]
    [("Enquiry", wcTarget 3)]).2.2.1

end Audit
